import Mathlib

/-!
# Verification of the ros2cal JSON-to-ICS conversion core

This file gives a shallow embedding of `src/ros2cal/ics.py` (the
event-to-calendar encoding engine) and proves properties of it.

Modelling conventions:
* Python `str` values are Lean `String`s; character-level functions
  (escaping, timestamp parsing) work on `List Char`.
* Python dictionaries with optional keys become structures with
  `Option` fields; `dict.get(k, default)` is `Option.getD`, and
  Python's `x or default` truthiness on strings/lists is modelled by
  dedicated helpers (`orToken`, `truthy`, `Option.getD []`).
* `datetime` instants are seconds since the Unix epoch (`Int`),
  converted to and from civil dates with the standard
  days-from-civil / civil-from-days algorithms.
* The host environment enters through `Env`: `host` is the system
  zone's UTC offset (in seconds, as a function of the naive local
  timestamp), used by `datetime.astimezone` when the parsed datetime
  carries no offset, and `zdb` is the `zoneinfo` database mapping a
  zone name to its UTC-offset function (`none` when the zone cannot
  be resolved, i.e. `ZoneInfo(...)` raises).
* Exceptions (`KeyError`/`ValueError` from missing or malformed
  timestamps, `ZoneInfoNotFoundError`) become `Except Err`, with the
  spec's taxonomy `MalformedInput` / `UnknownZone`.
-/

set_option maxRecDepth 10000

namespace Ros2cal

/-- Error taxonomy of the core (spec §7). -/
inductive Err where
  | malformedInput
  | unknownZone
deriving DecidableEq, Repr

/-! ## Single-character replacement (Python `str.replace` with a
one-character pattern) -/

/-- `s.replace(target, repl)` for a single-character `target`:
every occurrence of `target` is replaced by `repl`. -/
def replaceChar (target : Char) (repl : List Char) : List Char → List Char
  | [] => []
  | c :: cs => (if c = target then repl else [c]) ++ replaceChar target repl cs

theorem replaceChar_append (t : Char) (r : List Char) (a b : List Char) :
    replaceChar t r (a ++ b) = replaceChar t r a ++ replaceChar t r b := by
  induction a with
  | nil => rfl
  | cons c cs ih => simp [replaceChar, ih]

theorem replaceChar_eq_self {t : Char} {r : List Char} {l : List Char}
    (h : t ∉ l) : replaceChar t r l = l := by
  induction l with
  | nil => rfl
  | cons c cs ih =>
    simp only [List.mem_cons, not_or] at h
    simp [replaceChar, Ne.symm h.1, ih h.2]

/-! ## ICS text escaping (`_escape_ics_text`) -/

/-- Character-level body of `_escape_ics_text`: backslash is doubled
first, then comma, semicolon and newline are backslash-escaped
(newline becomes the two-character literal `\n`). -/
def escapeIcsList (s : List Char) : List Char :=
  replaceChar '\n' ['\\', 'n']
    (replaceChar ';' ['\\', ';']
      (replaceChar ',' ['\\', ',']
        (replaceChar '\\' ['\\', '\\'] s)))

/-- `_escape_ics_text(text)`: `None` becomes the empty string, else the
four substitutions above applied in order. -/
def escapeIcsText (text : Option String) : String :=
  match text with
  | none => ""
  | some s => ⟨escapeIcsList s.data⟩

/-- The per-character expansion performed by the four chained
replacements of `_escape_ics_text`. -/
def escChar (c : Char) : List Char :=
  if c = '\\' then ['\\', '\\']
  else if c = ',' then ['\\', ',']
  else if c = ';' then ['\\', ';']
  else if c = '\n' then ['\\', 'n']
  else [c]

theorem escapeIcsList_nil : escapeIcsList [] = [] := rfl

theorem escapeIcsList_cons (c : Char) (cs : List Char) :
    escapeIcsList (c :: cs) = escChar c ++ escapeIcsList cs := by
  by_cases h1 : c = '\\'
  · subst h1; simp [escapeIcsList, escChar, replaceChar, replaceChar_append]
  · by_cases h2 : c = ','
    · subst h2; simp [escapeIcsList, escChar, replaceChar, replaceChar_append]
    · by_cases h3 : c = ';'
      · subst h3; simp [escapeIcsList, escChar, replaceChar, replaceChar_append]
      · by_cases h4 : c = '\n'
        · subst h4; simp [escapeIcsList, escChar, replaceChar, replaceChar_append]
        · simp [escapeIcsList, escChar, replaceChar, replaceChar_append, h1, h2, h3, h4]

/-- Reversing the substitutions of `_escape_ics_text`: a left-to-right
scan turning `\\`, `\,`, `\;`, `\n` back into the characters they
encode. -/
def unescapeIcs : List Char → List Char
  | [] => []
  | c :: cs =>
    if c = '\\' then
      match cs with
      | [] => ['\\']
      | d :: ds =>
        if d = '\\' then '\\' :: unescapeIcs ds
        else if d = ',' then ',' :: unescapeIcs ds
        else if d = ';' then ';' :: unescapeIcs ds
        else if d = 'n' then '\n' :: unescapeIcs ds
        else '\\' :: d :: unescapeIcs ds
    else c :: unescapeIcs cs

/-- Scans a character list and checks that every comma, semicolon and
newline occurs only as the second character of a backslash-escape
pair (i.e. there is no literal unescaped occurrence of them). -/
def noUnescapedSpecials : List Char → Bool
  | [] => true
  | c :: cs =>
    if c = '\\' then
      match cs with
      | [] => true
      | _ :: ds => noUnescapedSpecials ds
    else (!(c = ',' || c = ';' || c = '\n')) && noUnescapedSpecials cs

theorem unescape_escChar (c : Char) (rest : List Char) :
    unescapeIcs (escChar c ++ rest) = c :: unescapeIcs rest := by
  by_cases h1 : c = '\\'
  · subst h1; simp [escChar, unescapeIcs]
  · by_cases h2 : c = ','
    · subst h2; simp [escChar, unescapeIcs]
    · by_cases h3 : c = ';'
      · subst h3; simp [escChar, unescapeIcs]
      · by_cases h4 : c = '\n'
        · subst h4; simp [escChar, unescapeIcs]
        · have hc : escChar c = [c] := by simp [escChar, h1, h2, h3, h4]
          rw [hc, List.singleton_append, unescapeIcs.eq_def]
          simp [h1]

theorem unescape_escapeIcsList (s : List Char) :
    unescapeIcs (escapeIcsList s) = s := by
  induction s with
  | nil => rfl
  | cons c cs ih => rw [escapeIcsList_cons, unescape_escChar, ih]

theorem noUnescaped_escChar (c : Char) (rest : List Char) :
    noUnescapedSpecials (escChar c ++ rest) = noUnescapedSpecials rest := by
  by_cases h1 : c = '\\'
  · subst h1; simp [escChar, noUnescapedSpecials]
  · by_cases h2 : c = ','
    · subst h2; simp [escChar, noUnescapedSpecials]
    · by_cases h3 : c = ';'
      · subst h3; simp [escChar, noUnescapedSpecials]
      · by_cases h4 : c = '\n'
        · subst h4; simp [escChar, noUnescapedSpecials]
        · have hc : escChar c = [c] := by simp [escChar, h1, h2, h3, h4]
          rw [hc, List.singleton_append, noUnescapedSpecials.eq_def]
          simp [h1, h2, h3, h4]

theorem noUnescaped_escapeIcsList (s : List Char) :
    noUnescapedSpecials (escapeIcsList s) = true := by
  induction s with
  | nil => rfl
  | cons c cs ih => rw [escapeIcsList_cons, noUnescaped_escChar, ih]

theorem newline_notMem_escChar (c : Char) : '\n' ∉ escChar c := by
  by_cases h1 : c = '\\'
  · subst h1; simp [escChar]
  · by_cases h2 : c = ','
    · subst h2; simp [escChar]
    · by_cases h3 : c = ';'
      · subst h3; simp [escChar]
      · by_cases h4 : c = '\n'
        · subst h4; simp [escChar]
        · simp [escChar, h1, h2, h3, h4]
          intro h; exact h4 h.symm

theorem newline_notMem_escapeIcsList (s : List Char) :
    '\n' ∉ escapeIcsList s := by
  induction s with
  | nil => simp [escapeIcsList_nil]
  | cons c cs ih =>
    rw [escapeIcsList_cons]
    intro h
    rcases List.mem_append.mp h with h | h
    · exact newline_notMem_escChar c h
    · exact ih h

/-! ## Dates and instants

`datetime` instants are seconds since the Unix epoch. Civil (proleptic
Gregorian) dates are related to epoch day numbers by the standard
days-from-civil / civil-from-days algorithms, which mirror what
CPython's `datetime` does via its ordinal-day representation. -/

/-- Epoch day number of the civil date `(y, m, d)`
(1970-01-01 is day 0). -/
def daysFromCivil (y m d : Int) : Int :=
  let y' := y - (if m ≤ 2 then 1 else 0)
  let era := (if 0 ≤ y' then y' else y' - 399) / 400
  let yoe := y' - era * 400
  let mp := (m + 9) % 12
  let doy := (153 * mp + 2) / 5 + d - 1
  let doe := yoe * 365 + yoe / 4 - yoe / 100 + doy
  era * 146097 + doe - 719468

/-- Civil date `(y, m, d)` of an epoch day number. -/
def civilFromDays (z : Int) : Int × Int × Int :=
  let z' := z + 719468
  let era := (if 0 ≤ z' then z' else z' - 146096) / 146097
  let doe := z' - era * 146097
  let yoe := (doe - doe / 1460 + doe / 36524 - doe / 146096) / 365
  let y := yoe + era * 400
  let doy := doe - (365 * yoe + yoe / 4 - yoe / 100)
  let mp := (5 * doy + 2) / 153
  let d := doy - (153 * mp + 2) / 5 + 1
  let m := mp + (if mp < 10 then 3 else -9)
  (y + (if m ≤ 2 then 1 else 0), m, d)

/-- Decimal digit character. -/
def digitChar (n : Nat) : Char := Char.ofNat (48 + n)

/-- `%02d` (for values below 100). -/
def pad2 (n : Nat) : String := ⟨[digitChar (n / 10 % 10), digitChar (n % 10)]⟩

/-- `%04d` (for values below 10000). -/
def pad4 (n : Nat) : String :=
  ⟨[digitChar (n / 1000 % 10), digitChar (n / 100 % 10),
    digitChar (n / 10 % 10), digitChar (n % 10)]⟩

/-- `%Y%m%d` of an epoch day number. -/
def fmtDate (day : Int) : String :=
  let c := civilFromDays day
  pad4 c.1.toNat ++ pad2 c.2.1.toNat ++ pad2 c.2.2.toNat

/-- Epoch day number an instant falls on (flooring division, as
`datetime.date()` in UTC). -/
def epochDay (t : Int) : Int := t.fdiv 86400

/-- Seconds elapsed since midnight of the instant's UTC day. -/
def secondOfDay (t : Int) : Nat := (t - epochDay t * 86400).toNat

/-- `_format_dt_for_ics(dt)`: the instant rendered in UTC as
`YYYYMMDDTHHMMSSZ` (`strftime("%Y%m%dT%H%M%SZ")`). -/
def formatDtForIcs (t : Int) : String :=
  let sod := secondOfDay t
  fmtDate (epochDay t) ++ "T" ++ pad2 (sod / 3600) ++ pad2 (sod / 60 % 60)
    ++ pad2 (sod % 60) ++ "Z"

/-- `strftime("%H:%M")` of an instant. -/
def fmtHM (t : Int) : String :=
  let sod := secondOfDay t
  pad2 (sod / 3600) ++ ":" ++ pad2 (sod / 60 % 60)

/-- `_format_time_z(dt)`: UTC wall-clock time suffixed with a literal
lowercase `z`. -/
def formatTimeZ (t : Int) : String := fmtHM t ++ "z"

/-! ## Timestamp parsing (`_parse_iso_utc`) -/

/-- Value of a decimal digit character, `none` otherwise. -/
def digitVal (c : Char) : Option Nat :=
  if '0' ≤ c ∧ c ≤ '9' then some (c.toNat - 48) else none

/-- Two-digit decimal number. -/
def num2 (a b : Char) : Option Nat := do
  let x ← digitVal a
  let y ← digitVal b
  pure (10 * x + y)

/-- Four-digit decimal number. -/
def num4 (a b c d : Char) : Option Nat := do
  let x ← digitVal a
  let y ← digitVal b
  let z ← digitVal c
  let w ← digitVal d
  pure (1000 * x + 100 * y + 10 * z + w)

def isLeap (y : Int) : Bool := y % 4 == 0 && (y % 100 != 0 || y % 400 == 0)

def daysInMonth (y m : Int) : Int :=
  if m = 1 ∨ m = 3 ∨ m = 5 ∨ m = 7 ∨ m = 8 ∨ m = 10 ∨ m = 12 then 31
  else if m = 4 ∨ m = 6 ∨ m = 9 ∨ m = 11 then 30
  else if isLeap y then 29 else 28

/-- Parses the optional trailing UTC-offset part of an ISO timestamp:
empty input means no offset (`some none`), otherwise a `±HH:MM`
offset in seconds; anything else is rejected. -/
def parseOffsetPart : List Char → Option (Option Int)
  | [] => some none
  | [sg, h1, h2, ':', m1, m2] => do
      let sign : Int ← if sg = '+' then some 1 else if sg = '-' then some (-1) else none
      let h ← num2 h1 h2
      let m ← num2 m1 m2
      if h ≤ 23 ∧ m ≤ 59 then some (some (sign * ((h : Int) * 3600 + m * 60)))
      else none
  | _ => none

/-- `datetime.fromisoformat` restricted to the
`YYYY-MM-DDTHH:MM:SS[±HH:MM]` shapes this program feeds it: returns
the naive timestamp (seconds since epoch of the stated wall-clock
time) and the explicit UTC offset, if one was given. -/
def parseIso (l : List Char) : Option (Int × Option Int) :=
  match l with
  | y1 :: y2 :: y3 :: y4 :: '-' :: m1 :: m2 :: '-' :: d1 :: d2 :: 'T' ::
      h1 :: h2 :: ':' :: n1 :: n2 :: ':' :: s1 :: s2 :: rest => do
      let y ← num4 y1 y2 y3 y4
      let mo ← num2 m1 m2
      let d ← num2 d1 d2
      let h ← num2 h1 h2
      let mi ← num2 n1 n2
      let s ← num2 s1 s2
      if 1 ≤ y ∧ 1 ≤ mo ∧ mo ≤ 12 ∧ 1 ≤ (d : Int) ∧ (d : Int) ≤ daysInMonth y mo ∧
          h ≤ 23 ∧ mi ≤ 59 ∧ s ≤ 59 then
        let off ← parseOffsetPart rest
        some (daysFromCivil y mo d * 86400 + (h : Int) * 3600 + (mi : Int) * 60 + (s : Int), off)
      else none
  | _ => none

/-- `value.endswith("Z")`. -/
def endsWithZ (l : List Char) : Bool :=
  match l.getLast? with
  | some c => c = 'Z'
  | none => false

/-- `value.replace("Z", "+00:00")` (replaces every `Z`). -/
def replaceZ (l : List Char) : List Char :=
  replaceChar 'Z' ['+', '0', '0', ':', '0', '0'] l

/-- The normalisation `_parse_iso_utc` performs before parsing. -/
def normZ (l : List Char) : List Char := if endsWithZ l then replaceZ l else l

/-- `_parse_iso_utc(value)`: normalise a trailing `Z`, parse, then
`astimezone(timezone.utc)`. An aware datetime is shifted by its own
offset; a naive one is presumed to be in the system zone, so the
host's offset (a function `host` of the naive timestamp) is used. -/
def parseIsoUtc (host : Int → Int) (l : List Char) : Option Int :=
  match parseIso (normZ l) with
  | none => none
  | some (naive, some off) => some (naive - off)
  | some (naive, none) => some (naive - host naive)

/-! ## Data model (spec §3) -/

/-- One flight segment of a `FLIGHT`/`DH` duty. Fields are the keys
the code reads from the segment dictionary; `none` models a missing
key. -/
structure Flight where
  flight_number : Option String := none
  departure_airport : Option String := none
  arrival_airport : Option String := none
  departure_time_utc : Option String := none
  arrival_time_utc : Option String := none

/-- One activity segment of a generic (fallback) duty. -/
structure Activity where
  start_place : Option String := none
  end_place : Option String := none
  start_time_utc : Option String := none
  end_time_utc : Option String := none

/-- One duty event: the keys `_event_to_ics`/`_build_description`
read from the event dictionary. -/
structure Event where
  duty_type : Option String := none
  start_utc : Option String := none
  end_utc : Option String := none
  is_all_day : Option Bool := none
  location : Option String := none
  flights : Option (List Flight) := none
  activities : Option (List Activity) := none

/-- The roster record handed to `json_to_ics` (`roster.get("events", [])`). -/
structure Roster where
  events : Option (List Event) := none

/-- The host environment the code depends on: the system zone's UTC
offset (used for naive timestamps) and the `zoneinfo` database
(`none` = `ZoneInfo` raises `ZoneInfoNotFoundError` for that name;
a resolved zone is its UTC-offset-in-seconds function of the
instant). -/
structure Env where
  host : Int → Int
  zdb : String → Option (Int → Int)

/-- Python `value or default` for an optional string: a missing key or
an empty string falls back to the default. -/
def orToken (o : Option String) (d : String) : String :=
  match o with
  | none => d
  | some s => if s = "" then d else s

/-- Python truthiness of an optional string (`if loc:`): present and
non-empty. -/
def truthy (o : Option String) : Option String :=
  match o with
  | none => none
  | some s => if s = "" then none else some s

/-- Parse an optional timestamp field: `none` for a missing key or an
unparseable value. -/
def parseOpt (host : Int → Int) (o : Option String) : Option Int :=
  match o with
  | none => none
  | some s => parseIsoUtc host s.data

/-- `_format_time_lt(dt, local_tz)`: resolve the zone (failing with
`UnknownZone` like `ZoneInfo`), convert the instant into it and format
`HH:MM` suffixed with a literal ` LT`. -/
def formatTimeLt (zdb : String → Option (Int → Int)) (t : Int) (local_tz : String) :
    Except Err String :=
  match zdb local_tz with
  | none => .error .unknownZone
  | some off => .ok (fmtHM (t + off t) ++ " LT")

/-- `COLOR_MAP.get(duty_type)`. -/
def colorMap (duty_type : String) : Option String :=
  if duty_type = "FLIGHT" then some "#4285F4"
  else if duty_type = "DH" then some "#DB4437"
  else if duty_type = "HSBY" then some "#F4B400"
  else if duty_type = "A/L" then some "#0F9D58"
  else none

/-- A Python `for` loop appending one computed line per element,
aborting at the first raised exception. -/
def mapExcept (f : α → Except Err β) : List α → Except Err (List β)
  | [] => .ok []
  | x :: xs =>
    match f x with
    | .error er => .error er
    | .ok y =>
      match mapExcept f xs with
      | .error er => .error er
      | .ok ys => .ok (y :: ys)

/-! ## Description building (`_build_description`) -/

/-- The line built for one flight segment inside the `FLIGHT`/`DH`
branch (missing/empty flight number renders as `UNKNOWN`, airports as
`???`; the segment's timestamps are required). -/
def flightLine (env : Env) (f : Flight) : Except Err String :=
  let fn := orToken f.flight_number "UNKNOWN"
  let dep_ap := orToken f.departure_airport "???"
  let arr_ap := orToken f.arrival_airport "???"
  match parseOpt env.host f.departure_time_utc with
  | none => .error .malformedInput
  | some dep_dt =>
    match parseOpt env.host f.arrival_time_utc with
    | none => .error .malformedInput
    | some arr_dt =>
      .ok (fn ++ " " ++ dep_ap ++ " " ++ formatTimeZ dep_dt ++ " " ++ arr_ap
        ++ " " ++ formatTimeZ arr_dt)

/-- The line built for one activity segment inside the generic
fallback branch. -/
def activityLine (env : Env) (a : Activity) : Except Err String :=
  let start_place := orToken a.start_place "???"
  let end_place := orToken a.end_place "???"
  match parseOpt env.host a.start_time_utc with
  | none => .error .malformedInput
  | some s_dt =>
    match parseOpt env.host a.end_time_utc with
    | none => .error .malformedInput
    | some e_dt =>
      .ok (start_place ++ " " ++ formatTimeZ s_dt ++ " -> " ++ end_place
        ++ " " ++ formatTimeZ e_dt)

/-- The `lines` list `_build_description` accumulates before joining
with `"\n"`. Mirrors the source: default duty type is the empty
string here; both outer timestamps are parsed and both local-time
renderings computed before any duty-type branching. -/
def buildDescriptionLines (env : Env) (event : Event) (local_tz : String) :
    Except Err (List String) :=
  let duty_type := event.duty_type.getD ""
  match parseOpt env.host event.start_utc with
  | none => .error .malformedInput
  | some start_dt =>
  match parseOpt env.host event.end_utc with
  | none => .error .malformedInput
  | some end_dt =>
  let checkin_z := formatTimeZ start_dt
  let checkout_z := formatTimeZ end_dt
  match formatTimeLt env.zdb start_dt local_tz with
  | .error er => .error er
  | .ok checkin_lt =>
  match formatTimeLt env.zdb end_dt local_tz with
  | .error er => .error er
  | .ok checkout_lt =>
  if duty_type = "FLIGHT" ∨ duty_type = "DH" then
    match mapExcept (flightLine env) (event.flights.getD []) with
    | .error er => .error er
    | .ok segLines =>
      .ok (("CHECK-IN " ++ checkin_z ++ " (" ++ checkin_lt ++ ")") ::
        segLines ++ ["CHECK-OUT " ++ checkout_z ++ " (" ++ checkout_lt ++ ")"])
  else if duty_type = "HSBY" then
    .ok (["Standby (HSBY)",
      checkin_z ++ " – " ++ checkout_z ++ " (" ++ checkin_lt ++ " – " ++ checkout_lt ++ ")"]
      ++ (match truthy event.location with
          | some loc => ["Location: " ++ loc]
          | none => []))
  else if duty_type = "A/L" then
    .ok ["Annual leave"]
  else
    match mapExcept (activityLine env) (event.activities.getD []) with
    | .error er => .error er
    | .ok actLines =>
      .ok (("Duty: " ++ duty_type) ::
        ("CHECK-IN " ++ checkin_z ++ " (" ++ checkin_lt ++ ")") ::
        actLines ++ ["CHECK-OUT " ++ checkout_z ++ " (" ++ checkout_lt ++ ")"])

/-- `_build_description(event, local_tz)`: the accumulated lines
joined with `"\n"`. -/
def buildDescription (env : Env) (event : Event) (local_tz : String) :
    Except Err String :=
  match buildDescriptionLines env event local_tz with
  | .error er => .error er
  | .ok lines => .ok (String.intercalate "\n" lines)

/-! ## Event encoding (`_event_to_ics`) -/

/-- The `lines` list `_event_to_ics` accumulates before joining with
`"\r\n"`. Mirrors the source: default duty type is `"DUTY"` here; the
UID is built from the raw input strings; the generation timestamp
`now` (the `datetime.now(timezone.utc)` instant) enters only the
DTSTAMP line; an event is all-day when its `is_all_day` flag is truthy
or its duty type is `A/L`, and then both date lines derive from the
start date alone. -/
def eventToIcsLines (env : Env) (event : Event) (local_tz : String)
    (calendar_name : String) (now : Int) : Except Err (List String) :=
  let duty_type := event.duty_type.getD "DUTY"
  let summary := escapeIcsText (some duty_type)
  match event.start_utc with
  | none => .error .malformedInput
  | some start_raw =>
  match parseIsoUtc env.host start_raw.data with
  | none => .error .malformedInput
  | some start_dt =>
  match event.end_utc with
  | none => .error .malformedInput
  | some end_raw =>
  match parseIsoUtc env.host end_raw.data with
  | none => .error .malformedInput
  | some end_dt =>
  let uid := duty_type ++ "|" ++ start_raw ++ "|" ++ end_raw
  match buildDescription env event local_tz with
  | .error er => .error er
  | .ok description =>
  let description_esc := escapeIcsText (some description)
  let dtstamp := formatDtForIcs now
  let color := colorMap duty_type
  let timing :=
    if event.is_all_day.getD false || duty_type == "A/L" then
      let start_date := epochDay start_dt
      ["DTSTART;VALUE=DATE:" ++ fmtDate start_date,
       "DTEND;VALUE=DATE:" ++ fmtDate (start_date + 1)]
    else
      ["DTSTART:" ++ formatDtForIcs start_dt,
       "DTEND:" ++ formatDtForIcs end_dt]
  .ok (["BEGIN:VEVENT", "UID:" ++ uid, "DTSTAMP:" ++ dtstamp] ++ timing ++
    ["SUMMARY:" ++ summary, "DESCRIPTION:" ++ description_esc] ++
    (match color with
     | some c => ["COLOR:" ++ c]
     | none => []) ++
    ["END:VEVENT"])

/-- `_event_to_ics(event, local_tz, calendar_name)`: the VEVENT block,
lines joined with `"\r\n"`. -/
def eventToIcs (env : Env) (event : Event) (local_tz : String)
    (calendar_name : String) (now : Int) : Except Err String :=
  match eventToIcsLines env event local_tz calendar_name now with
  | .error er => .error er
  | .ok lines => .ok (String.intercalate "\r\n" lines)

/-! ## Calendar assembly (`json_to_ics`) -/

/-- The body list comprehension of `json_to_ics`: one encoded block
per event, in input order, aborting at the first failure. `nows i` is
the wall-clock instant captured while encoding the `i`-th event (the
source calls `datetime.now` once per event). -/
def encodeEvents (env : Env) (local_tz calendar_name : String)
    (nows : Nat → Int) : Nat → List Event → Except Err (List String)
  | _, [] => .ok []
  | i, e :: es =>
    match eventToIcs env e local_tz calendar_name (nows i) with
    | .error er => .error er
    | .ok b =>
      match encodeEvents env local_tz calendar_name nows (i + 1) es with
      | .error er => .error er
      | .ok bs => .ok (b :: bs)

/-- The fixed five-line preamble of the document. -/
def icsHeader (calendar_name : String) : List String :=
  ["BEGIN:VCALENDAR", "VERSION:2.0",
   "PRODID:-//" ++ calendar_name ++ "//RosterToICS//EN",
   "CALSCALE:GREGORIAN", "METHOD:PUBLISH"]

/-- `json_to_ics(roster, calendar_name=..., local_tz=...)`: header,
one block per event, footer, joined with CR+LF. -/
def jsonToIcs (env : Env) (roster : Roster) (calendar_name : String)
    (local_tz : String) (nows : Nat → Int) : Except Err String :=
  match encodeEvents env local_tz calendar_name nows 0 (roster.events.getD []) with
  | .error er => .error er
  | .ok body =>
    .ok (String.intercalate "\r\n" (icsHeader calendar_name ++ body ++ ["END:VCALENDAR"]))

/-! ## Required-timestamp predicates

Which timestamp fields the encoder actually reads for a given event:
the outer `start_utc`/`end_utc` always, the flight segments' pair only
on the `FLIGHT`/`DH` branch, the activity segments' pair only on the
generic fallback branch. -/

/-- Both required timestamps of a flight segment are present and
parseable. -/
def flightTsOk (host : Int → Int) (f : Flight) : Bool :=
  (parseOpt host f.departure_time_utc).isSome &&
  (parseOpt host f.arrival_time_utc).isSome

/-- Both required timestamps of an activity segment are present and
parseable. -/
def activityTsOk (host : Int → Int) (a : Activity) : Bool :=
  (parseOpt host a.start_time_utc).isSome &&
  (parseOpt host a.end_time_utc).isSome

/-- All segment timestamps the description builder will read for this
event are present and parseable. -/
def segmentsTsOk (host : Int → Int) (e : Event) : Bool :=
  let dt := e.duty_type.getD ""
  if dt = "FLIGHT" ∨ dt = "DH" then (e.flights.getD []).all (flightTsOk host)
  else if dt = "HSBY" then true
  else if dt = "A/L" then true
  else (e.activities.getD []).all (activityTsOk host)

/-- Every required timestamp field of the event is present and
parseable. -/
def eventTimestampsOk (host : Int → Int) (e : Event) : Bool :=
  (parseOpt host e.start_utc).isSome && (parseOpt host e.end_utc).isSome &&
  segmentsTsOk host e

/-! ## Sample data for concrete witnesses -/

/-- A small zone database: UTC at offset 0, Berlin at a fixed +01:00,
nothing else resolvable; the host zone is UTC. -/
def envW : Env :=
  ⟨fun _ => 0,
   fun z => if z = "UTC" then some (fun _ => 0)
     else if z = "Europe/Berlin" then some (fun _ => 3600)
     else none⟩

/-- An environment in which no zone name resolves. -/
def envNoZone : Env := ⟨fun _ => 0, fun _ => none⟩

/-- Spec example 1: an annual-leave event. -/
def evAL : Event :=
  { duty_type := some "A/L", start_utc := some "2024-03-01T00:00:00Z",
    end_utc := some "2024-03-01T23:59:00Z" }

/-- Spec example 2: the single flight segment. -/
def flW : Flight :=
  { flight_number := some "BA123", departure_airport := some "LHR",
    arrival_airport := some "JFK",
    departure_time_utc := some "2024-03-01T08:00:00Z",
    arrival_time_utc := some "2024-03-01T16:00:00Z" }

/-- Spec example 2: a FLIGHT event bracketing `flW`. -/
def evFl : Event :=
  { duty_type := some "FLIGHT", start_utc := some "2024-03-01T07:00:00Z",
    end_utc := some "2024-03-01T17:00:00Z", flights := some [flW] }

/-- An event with no `duty_type` key at all. -/
def evNoType : Event :=
  { start_utc := some "2024-03-01T08:00:00Z",
    end_utc := some "2024-03-01T10:00:00Z" }

/-! # Claim theorems -/

/-- C3. Escaping round-trip: `_escape_ics_text` replaces backslash
first, then comma, semicolon and newline (as its definition states);
its output contains no literal unescaped comma, semicolon or newline
(every remaining comma/semicolon sits right after a backslash, and no
newline character remains at all), and applying the reverse
substitutions (`unescapeIcs`) to the escaped output recovers the
original text exactly. -/
theorem escape_roundtrip (t : String) :
    String.mk (unescapeIcs (escapeIcsText (some t)).data) = t ∧
    noUnescapedSpecials (escapeIcsText (some t)).data = true ∧
    '\n' ∉ (escapeIcsText (some t)).data := by
  refine ⟨?_, ?_, ?_⟩
  · show String.mk (unescapeIcs (escapeIcsList t.data)) = t
    rw [unescape_escapeIcsList]
  · exact noUnescaped_escapeIcsList t.data
  · exact newline_notMem_escapeIcsList t.data

/-- C9 (counterexample). The instant `_parse_iso_utc` produces is not
independent of the host environment: the text
`2024-03-01T08:00:00` (no zone offset) parses to different instants
under host zones UTC and UTC+1, and under host zone UTC+1 it differs
from the same text with a trailing `Z`, so a missing offset does not
mean a zero offset. -/
theorem parse_host_dependent :
    parseIsoUtc (fun _ => 0) "2024-03-01T08:00:00".data ≠
      parseIsoUtc (fun _ => 3600) "2024-03-01T08:00:00".data ∧
    parseIsoUtc (fun _ => 3600) "2024-03-01T08:00:00".data ≠
      parseIsoUtc (fun _ => 3600) "2024-03-01T08:00:00Z".data := by
  constructor <;> decide

theorem endsWithZ_concat (s : List Char) : endsWithZ (s ++ ['Z']) = true := by
  simp [endsWithZ, List.getLast?_concat]

/-- C9 (amended). A trailing `Z` is a synonym for an explicit
`+00:00` offset (for texts with no other `Z`), and whenever the
normalised text parses with an explicit offset the resulting instant
is independent of the host environment; but a text with no explicit
offset is interpreted in the host's zone, so only offset-carrying
texts parse host-independently. -/
theorem parse_utc_anchored_amended (host₁ host₂ : Int → Int) (s l : List Char)
    (hs : 'Z' ∉ s)
    (hl : (parseIso (normZ l)).all (fun p => p.2.isSome) = true) :
    parseIsoUtc host₁ (s ++ ['Z']) =
      parseIsoUtc host₁ (s ++ ['+', '0', '0', ':', '0', '0']) ∧
    parseIsoUtc host₁ l = parseIsoUtc host₂ l := by
  constructor
  · have h1 : normZ (s ++ ['Z']) = s ++ ['+', '0', '0', ':', '0', '0'] := by
      rw [normZ, if_pos (endsWithZ_concat s), replaceZ, replaceChar_append,
        replaceChar_eq_self hs]
      simp [replaceChar]
    have h2 : normZ (s ++ ['+', '0', '0', ':', '0', '0']) =
        s ++ ['+', '0', '0', ':', '0', '0'] := by
      rw [normZ, if_neg]
      intro h
      have hrw : s ++ ['+', '0', '0', ':', '0', '0'] =
          (s ++ ['+', '0', '0', ':', '0']) ++ ['0'] := by simp
      rw [endsWithZ, hrw, List.getLast?_concat] at h
      simp at h
    rw [parseIsoUtc, parseIsoUtc, h1, h2]
  · rw [parseIsoUtc, parseIsoUtc]
    cases hp : parseIso (normZ l) with
    | none => rfl
    | some p =>
      obtain ⟨naive, off⟩ := p
      cases off with
      | none => rw [hp] at hl; simp [Option.all] at hl
      | some o => rfl

/-- C9 amended, witness: host independence and the `Z` ≡ `+00:00`
synonym at the concrete text `2024-03-01T08:00:00`(+01:00). -/
theorem parse_utc_anchored_amended_witness :
    ('Z' ∉ "2024-03-01T08:00:00".data ∧
     (parseIso (normZ "2024-03-01T08:00:00+01:00".data)).all
       (fun p => p.2.isSome) = true) ∧
    (parseIsoUtc (fun _ => 0) ("2024-03-01T08:00:00".data ++ ['Z']) =
      parseIsoUtc (fun _ => 0)
        ("2024-03-01T08:00:00".data ++ ['+', '0', '0', ':', '0', '0']) ∧
     parseIsoUtc (fun _ => 0) "2024-03-01T08:00:00+01:00".data =
      parseIsoUtc (fun _ => 3600) "2024-03-01T08:00:00+01:00".data) :=
  ⟨⟨by decide, by decide⟩,
   parse_utc_anchored_amended (fun _ => 0) (fun _ => 3600)
     "2024-03-01T08:00:00".data "2024-03-01T08:00:00+01:00".data
     (by decide) (by decide)⟩

/-- Structure of a successfully encoded VEVENT block: the field order,
the UID built from the raw input strings, the DTSTAMP from the
generation instant, the timing pair, summary, description, optional
color, and the end marker. -/
theorem eventToIcsLines_ok_shape {env : Env} {e : Event} {tz cal : String}
    {now : Int} {l : List String}
    (h : eventToIcsLines env e tz cal now = .ok l) :
    ∃ su eu t te desc, e.start_utc = some su ∧ e.end_utc = some eu ∧
      parseIsoUtc env.host su.data = some t ∧
      parseIsoUtc env.host eu.data = some te ∧
      buildDescription env e tz = .ok desc ∧
      l = ["BEGIN:VEVENT",
           "UID:" ++ e.duty_type.getD "DUTY" ++ "|" ++ su ++ "|" ++ eu,
           "DTSTAMP:" ++ formatDtForIcs now] ++
          (if e.is_all_day.getD false || e.duty_type.getD "DUTY" == "A/L" then
            ["DTSTART;VALUE=DATE:" ++ fmtDate (epochDay t),
             "DTEND;VALUE=DATE:" ++ fmtDate (epochDay t + 1)]
          else
            ["DTSTART:" ++ formatDtForIcs t, "DTEND:" ++ formatDtForIcs te]) ++
          ["SUMMARY:" ++ escapeIcsText (some (e.duty_type.getD "DUTY")),
           "DESCRIPTION:" ++ escapeIcsText (some desc)] ++
          (match colorMap (e.duty_type.getD "DUTY") with
           | some c => ["COLOR:" ++ c]
           | none => []) ++
          ["END:VEVENT"] := by
  cases hsu : e.start_utc with
  | none => simp only [eventToIcsLines, hsu] at h; exact Except.noConfusion h
  | some su =>
  cases ht : parseIsoUtc env.host su.data with
  | none =>
    simp only [eventToIcsLines, hsu, ht] at h; exact Except.noConfusion h
  | some t =>
  cases heu : e.end_utc with
  | none =>
    simp only [eventToIcsLines, hsu, ht, heu] at h; exact Except.noConfusion h
  | some eu =>
  cases hte : parseIsoUtc env.host eu.data with
  | none =>
    simp only [eventToIcsLines, hsu, ht, heu, hte] at h
    exact Except.noConfusion h
  | some te =>
  cases hd : buildDescription env e tz with
  | error er =>
    simp only [eventToIcsLines, hsu, ht, heu, hte, hd] at h
    exact Except.noConfusion h
  | ok desc =>
    refine ⟨su, eu, t, te, desc, rfl, rfl, ht, hte, rfl, ?_⟩
    simp only [eventToIcsLines, hsu, ht, heu, hte, hd, Except.ok.injEq] at h
    exact h.symm

/-- C1. UID determinism: two events that agree on `duty_type`,
`start_utc` and `end_utc` as given in the input (all other fields and
the generation instants free to differ) produce the same UID line,
namely `UID:<duty_type>|<start_utc>|<end_utc>` built from the raw
input strings — never randomly generated. -/
theorem uid_deterministic (env : Env) (tz cal : String) (now₁ now₂ : Int)
    (e₁ e₂ : Event) (dt su eu : String) (l₁ l₂ : List String)
    (hd12 : e₁.duty_type = e₂.duty_type) (hs12 : e₁.start_utc = e₂.start_utc)
    (he12 : e₁.end_utc = e₂.end_utc)
    (hdt : e₁.duty_type = some dt) (hsu : e₁.start_utc = some su)
    (heu : e₁.end_utc = some eu)
    (h₁ : eventToIcsLines env e₁ tz cal now₁ = .ok l₁)
    (h₂ : eventToIcsLines env e₂ tz cal now₂ = .ok l₂) :
    l₁.get? 1 = some ("UID:" ++ dt ++ "|" ++ su ++ "|" ++ eu) ∧
    l₂.get? 1 = l₁.get? 1 := by
  obtain ⟨su₁, eu₁, _, _, _, hsu₁, heu₁, _, _, _, hl₁⟩ := eventToIcsLines_ok_shape h₁
  obtain ⟨su₂, eu₂, _, _, _, hsu₂, heu₂, _, _, _, hl₂⟩ := eventToIcsLines_ok_shape h₂
  rw [hsu] at hsu₁; injection hsu₁ with hsu₁
  rw [heu] at heu₁; injection heu₁ with heu₁
  rw [← hs12, hsu] at hsu₂; injection hsu₂ with hsu₂
  rw [← he12, heu] at heu₂; injection heu₂ with heu₂
  subst hsu₁ heu₁ hsu₂ heu₂
  subst hl₁ hl₂
  rw [← hd12, hdt]
  exact ⟨rfl, rfl⟩

/-- C1, witness at two concrete `A/L` events that agree on the three
identity fields but differ in `location` and in the generation
instants. -/
theorem uid_deterministic_witness :
    (evAL.duty_type = (Event.mk (some "A/L") (some "2024-03-01T00:00:00Z")
        (some "2024-03-01T23:59:00Z") none (some "HOME") none none).duty_type ∧
     evAL.duty_type = some "A/L" ∧
     eventToIcsLines envW evAL "UTC" "Roster" 0 =
       .ok ["BEGIN:VEVENT",
            "UID:A/L|2024-03-01T00:00:00Z|2024-03-01T23:59:00Z",
            "DTSTAMP:19700101T000000Z", "DTSTART;VALUE=DATE:20240301",
            "DTEND;VALUE=DATE:20240302", "SUMMARY:A/L",
            "DESCRIPTION:Annual leave", "COLOR:#0F9D58", "END:VEVENT"]) ∧
    ((["BEGIN:VEVENT",
       "UID:A/L|2024-03-01T00:00:00Z|2024-03-01T23:59:00Z",
       "DTSTAMP:19700101T000000Z", "DTSTART;VALUE=DATE:20240301",
       "DTEND;VALUE=DATE:20240302", "SUMMARY:A/L",
       "DESCRIPTION:Annual leave", "COLOR:#0F9D58",
       "END:VEVENT"] : List String).get? 1 =
      some ("UID:" ++ "A/L" ++ "|" ++ "2024-03-01T00:00:00Z" ++ "|" ++
        "2024-03-01T23:59:00Z") ∧
     (["BEGIN:VEVENT",
       "UID:A/L|2024-03-01T00:00:00Z|2024-03-01T23:59:00Z",
       "DTSTAMP:20240301T080000Z", "DTSTART;VALUE=DATE:20240301",
       "DTEND;VALUE=DATE:20240302", "SUMMARY:A/L",
       "DESCRIPTION:Annual leave", "COLOR:#0F9D58",
       "END:VEVENT"] : List String).get? 1 =
      (["BEGIN:VEVENT",
        "UID:A/L|2024-03-01T00:00:00Z|2024-03-01T23:59:00Z",
        "DTSTAMP:19700101T000000Z", "DTSTART;VALUE=DATE:20240301",
        "DTEND;VALUE=DATE:20240302", "SUMMARY:A/L",
        "DESCRIPTION:Annual leave", "COLOR:#0F9D58",
        "END:VEVENT"] : List String).get? 1) :=
  ⟨⟨rfl, rfl, rfl⟩,
   uid_deterministic envW "UTC" "Roster" 0 1709280000 evAL
     (Event.mk (some "A/L") (some "2024-03-01T00:00:00Z")
       (some "2024-03-01T23:59:00Z") none (some "HOME") none none)
     "A/L" "2024-03-01T00:00:00Z" "2024-03-01T23:59:00Z" _ _
     rfl rfl rfl rfl rfl rfl rfl rfl⟩

/-- C2. All-day timing rule: an event whose `is_all_day` flag is set
(or whose duty type is `A/L`) gets `DTSTART;VALUE=DATE` on the UTC
calendar date of its parsed `start_utc` and `DTEND;VALUE=DATE` on that
date plus one day — independent of `end_utc`; every other event gets
`DTSTART`/`DTEND` as compact UTC timestamps of the parsed instants. -/
theorem allday_timing (env : Env) (e : Event) (tz cal : String) (now : Int)
    (l : List String) (t te : Int)
    (hok : eventToIcsLines env e tz cal now = .ok l)
    (ht : parseOpt env.host e.start_utc = some t)
    (hte : parseOpt env.host e.end_utc = some te) :
    if e.is_all_day.getD false || e.duty_type.getD "DUTY" == "A/L" then
      l.get? 3 = some ("DTSTART;VALUE=DATE:" ++ fmtDate (epochDay t)) ∧
      l.get? 4 = some ("DTEND;VALUE=DATE:" ++ fmtDate (epochDay t + 1))
    else
      l.get? 3 = some ("DTSTART:" ++ formatDtForIcs t) ∧
      l.get? 4 = some ("DTEND:" ++ formatDtForIcs te) := by
  obtain ⟨su, eu, t', te', desc, hsu, heu, ht', hte', hd, hl⟩ :=
    eventToIcsLines_ok_shape hok
  rw [hsu] at ht; rw [heu] at hte
  simp only [parseOpt] at ht hte
  rw [ht'] at ht; injection ht with ht
  rw [hte'] at hte; injection hte with hte
  subst ht hte
  subst hl
  split <;> exact ⟨rfl, rfl⟩

/-- C2, witness at the concrete `A/L` event of spec example 1 (note
its `end_utc` lies on the same calendar day yet DTEND is the next
day). -/
theorem allday_timing_witness :
    (eventToIcsLines envW evAL "UTC" "Roster" 0 =
       .ok ["BEGIN:VEVENT",
            "UID:A/L|2024-03-01T00:00:00Z|2024-03-01T23:59:00Z",
            "DTSTAMP:19700101T000000Z", "DTSTART;VALUE=DATE:20240301",
            "DTEND;VALUE=DATE:20240302", "SUMMARY:A/L",
            "DESCRIPTION:Annual leave", "COLOR:#0F9D58", "END:VEVENT"] ∧
     parseOpt envW.host evAL.start_utc = some 1709251200 ∧
     parseOpt envW.host evAL.end_utc = some 1709337540) ∧
    (if evAL.is_all_day.getD false || evAL.duty_type.getD "DUTY" == "A/L" then
      (["BEGIN:VEVENT",
        "UID:A/L|2024-03-01T00:00:00Z|2024-03-01T23:59:00Z",
        "DTSTAMP:19700101T000000Z", "DTSTART;VALUE=DATE:20240301",
        "DTEND;VALUE=DATE:20240302", "SUMMARY:A/L",
        "DESCRIPTION:Annual leave", "COLOR:#0F9D58",
        "END:VEVENT"] : List String).get? 3 =
        some ("DTSTART;VALUE=DATE:" ++ fmtDate (epochDay 1709251200)) ∧
      (["BEGIN:VEVENT",
        "UID:A/L|2024-03-01T00:00:00Z|2024-03-01T23:59:00Z",
        "DTSTAMP:19700101T000000Z", "DTSTART;VALUE=DATE:20240301",
        "DTEND;VALUE=DATE:20240302", "SUMMARY:A/L",
        "DESCRIPTION:Annual leave", "COLOR:#0F9D58",
        "END:VEVENT"] : List String).get? 4 =
        some ("DTEND;VALUE=DATE:" ++ fmtDate (epochDay 1709251200 + 1))
    else
      (["BEGIN:VEVENT",
        "UID:A/L|2024-03-01T00:00:00Z|2024-03-01T23:59:00Z",
        "DTSTAMP:19700101T000000Z", "DTSTART;VALUE=DATE:20240301",
        "DTEND;VALUE=DATE:20240302", "SUMMARY:A/L",
        "DESCRIPTION:Annual leave", "COLOR:#0F9D58",
        "END:VEVENT"] : List String).get? 3 =
        some ("DTSTART:" ++ formatDtForIcs 1709251200) ∧
      (["BEGIN:VEVENT",
        "UID:A/L|2024-03-01T00:00:00Z|2024-03-01T23:59:00Z",
        "DTSTAMP:19700101T000000Z", "DTSTART;VALUE=DATE:20240301",
        "DTEND;VALUE=DATE:20240302", "SUMMARY:A/L",
        "DESCRIPTION:Annual leave", "COLOR:#0F9D58",
        "END:VEVENT"] : List String).get? 4 =
        some ("DTEND:" ++ formatDtForIcs 1709337540)) :=
  ⟨⟨rfl, rfl, rfl⟩,
   allday_timing envW evAL "UTC" "Roster" 0 _ 1709251200 1709337540
     rfl rfl rfl⟩

/-- C8. Purity modulo the generation stamp: encoding the same event
at two wall-clock instants yields results identical except in the
DTSTAMP line (the second encoding is the first with index 2 replaced
by the new DTSTAMP line, and index 2 is the DTSTAMP line); so every
other line, and the success/failure outcome, is a deterministic
function of the event and the local zone alone. -/
theorem pure_modulo_dtstamp (env : Env) (e : Event) (tz cal : String)
    (now₁ now₂ : Int) :
    eventToIcsLines env e tz cal now₂ =
      (eventToIcsLines env e tz cal now₁).map
        (fun l => l.set 2 ("DTSTAMP:" ++ formatDtForIcs now₂)) ∧
    ∀ l, eventToIcsLines env e tz cal now₁ = .ok l →
      l.get? 2 = some ("DTSTAMP:" ++ formatDtForIcs now₁) := by
  cases hsu : e.start_utc with
  | none =>
    simp only [eventToIcsLines, hsu, Except.map]
    exact ⟨trivial, fun l hl => Except.noConfusion hl⟩
  | some su =>
  cases ht : parseIsoUtc env.host su.data with
  | none =>
    simp only [eventToIcsLines, hsu, ht, Except.map]
    exact ⟨trivial, fun l hl => Except.noConfusion hl⟩
  | some t =>
  cases heu : e.end_utc with
  | none =>
    simp only [eventToIcsLines, hsu, ht, heu, Except.map]
    exact ⟨trivial, fun l hl => Except.noConfusion hl⟩
  | some eu =>
  cases hte : parseIsoUtc env.host eu.data with
  | none =>
    simp only [eventToIcsLines, hsu, ht, heu, hte, Except.map]
    exact ⟨trivial, fun l hl => Except.noConfusion hl⟩
  | some te =>
  cases hd : buildDescription env e tz with
  | error er =>
    simp only [eventToIcsLines, hsu, ht, heu, hte, hd, Except.map]
    exact ⟨trivial, fun l hl => Except.noConfusion hl⟩
  | ok desc =>
  simp only [eventToIcsLines, hsu, ht, heu, hte, hd, Except.map]
  refine ⟨rfl, ?_⟩
  intro l hl
  injection hl with hl
  subst hl
  rfl

/-- C8, witness: the concrete `A/L` event encoded at two instants. -/
theorem pure_modulo_dtstamp_witness :
    eventToIcsLines envW evAL "UTC" "Roster" 86400 =
      (eventToIcsLines envW evAL "UTC" "Roster" 0).map
        (fun l => l.set 2 ("DTSTAMP:" ++ formatDtForIcs 86400)) ∧
    ∀ l, eventToIcsLines envW evAL "UTC" "Roster" 0 = .ok l →
      l.get? 2 = some ("DTSTAMP:" ++ formatDtForIcs 0) :=
  pure_modulo_dtstamp envW evAL "UTC" "Roster" 0 86400

/-- C10. Inconsistent defaults for a missing `duty_type`:
`_event_to_ics` falls back to `"DUTY"` (UID prefix `UID:DUTY|…`,
`SUMMARY:DUTY`, and — since `"DUTY"` has no color mapping — an
8-line block with no COLOR line), while `_build_description` falls
back to the empty string and takes the generic branch, so the
description's first line is literally `Duty: ` with nothing after the
colon. -/
theorem missing_duty_type_defaults (env : Env) (e : Event) (tz cal : String)
    (now : Int) (l dls : List String) (su eu : String)
    (hdt : e.duty_type = none) (hsu : e.start_utc = some su)
    (heu : e.end_utc = some eu)
    (hok : eventToIcsLines env e tz cal now = .ok l)
    (hdesc : buildDescriptionLines env e tz = .ok dls) :
    l.get? 1 = some ("UID:DUTY|" ++ su ++ "|" ++ eu) ∧
    l.get? 5 = some "SUMMARY:DUTY" ∧
    l.length = 8 ∧
    dls.get? 0 = some "Duty: " := by
  obtain ⟨su', eu', t, te, desc, hsu', heu', ht, hte, hd, hl⟩ :=
    eventToIcsLines_ok_shape hok
  rw [hsu] at hsu'; injection hsu' with hsu'
  rw [heu] at heu'; injection heu' with heu'
  subst hsu' heu'
  subst hl
  rw [hdt]
  refine ⟨rfl, ?_, ?_, ?_⟩
  · cases hall : (e.is_all_day.getD false ||
        (Option.none (α := String)).getD "DUTY" == "A/L") <;> rfl
  · cases hall : (e.is_all_day.getD false ||
        (Option.none (α := String)).getD "DUTY" == "A/L") <;> rfl
  · cases hz : env.zdb tz with
    | none =>
      simp only [buildDescriptionLines, hdt, hsu, heu, parseOpt, ht, hte, hz,
        formatTimeLt, Option.getD_none] at hdesc
      exact Except.noConfusion hdesc
    | some off =>
      simp only [buildDescriptionLines, hdt, hsu, heu, parseOpt, ht, hte, hz,
        formatTimeLt, Option.getD_none] at hdesc
      rw [if_neg (by decide), if_neg (by decide), if_neg (by decide)] at hdesc
      cases hma : mapExcept (activityLine env) (e.activities.getD []) with
      | error er => rw [hma] at hdesc; exact Except.noConfusion hdesc
      | ok al =>
        rw [hma] at hdesc
        injection hdesc with hdesc
        subst hdesc
        rfl

/-- C10, witness at a concrete event with no `duty_type` key. -/
theorem missing_duty_type_defaults_witness :
    (evNoType.duty_type = none ∧
     eventToIcsLines envW evNoType "UTC" "Roster" 0 =
       .ok ["BEGIN:VEVENT",
            "UID:DUTY|2024-03-01T08:00:00Z|2024-03-01T10:00:00Z",
            "DTSTAMP:19700101T000000Z", "DTSTART:20240301T080000Z",
            "DTEND:20240301T100000Z", "SUMMARY:DUTY",
            "DESCRIPTION:Duty: \\nCHECK-IN 08:00z (08:00 LT)\\nCHECK-OUT 10:00z (10:00 LT)",
            "END:VEVENT"] ∧
     buildDescriptionLines envW evNoType "UTC" =
       .ok ["Duty: ", "CHECK-IN 08:00z (08:00 LT)",
            "CHECK-OUT 10:00z (10:00 LT)"]) ∧
    ((["BEGIN:VEVENT",
       "UID:DUTY|2024-03-01T08:00:00Z|2024-03-01T10:00:00Z",
       "DTSTAMP:19700101T000000Z", "DTSTART:20240301T080000Z",
       "DTEND:20240301T100000Z", "SUMMARY:DUTY",
       "DESCRIPTION:Duty: \\nCHECK-IN 08:00z (08:00 LT)\\nCHECK-OUT 10:00z (10:00 LT)",
       "END:VEVENT"] : List String).get? 1 =
        some ("UID:DUTY|" ++ "2024-03-01T08:00:00Z" ++ "|" ++
          "2024-03-01T10:00:00Z") ∧
     (["BEGIN:VEVENT",
       "UID:DUTY|2024-03-01T08:00:00Z|2024-03-01T10:00:00Z",
       "DTSTAMP:19700101T000000Z", "DTSTART:20240301T080000Z",
       "DTEND:20240301T100000Z", "SUMMARY:DUTY",
       "DESCRIPTION:Duty: \\nCHECK-IN 08:00z (08:00 LT)\\nCHECK-OUT 10:00z (10:00 LT)",
       "END:VEVENT"] : List String).get? 5 = some "SUMMARY:DUTY" ∧
     (["BEGIN:VEVENT",
       "UID:DUTY|2024-03-01T08:00:00Z|2024-03-01T10:00:00Z",
       "DTSTAMP:19700101T000000Z", "DTSTART:20240301T080000Z",
       "DTEND:20240301T100000Z", "SUMMARY:DUTY",
       "DESCRIPTION:Duty: \\nCHECK-IN 08:00z (08:00 LT)\\nCHECK-OUT 10:00z (10:00 LT)",
       "END:VEVENT"] : List String).length = 8 ∧
     (["Duty: ", "CHECK-IN 08:00z (08:00 LT)",
       "CHECK-OUT 10:00z (10:00 LT)"] : List String).get? 0 =
        some "Duty: ") :=
  ⟨⟨rfl, rfl, rfl⟩,
   missing_duty_type_defaults envW evNoType "UTC" "Roster" 0 _ _
     "2024-03-01T08:00:00Z" "2024-03-01T10:00:00Z"
     rfl rfl rfl rfl rfl⟩

/-- A successful `mapExcept` run has one output per input, in order:
the `i`-th output line is the (successful) image of the `i`-th input
element. -/
theorem mapExcept_ok_get {f : α → Except Err β} :
    ∀ {l : List α} {ys : List β}, mapExcept f l = .ok ys →
      ys.length = l.length ∧
      ∀ i x, l.get? i = some x → ∃ y, f x = .ok y ∧ ys.get? i = some y := by
  intro l
  induction l with
  | nil =>
    intro ys h
    injection h with h
    subst h
    exact ⟨rfl, fun i x hx => by cases i <;> exact Option.noConfusion hx⟩
  | cons a as ih =>
    intro ys h
    rw [mapExcept] at h
    cases hf : f a with
    | error er => rw [hf] at h; exact Except.noConfusion h
    | ok y =>
      rw [hf] at h
      cases hm : mapExcept f as with
      | error er => rw [hm] at h; exact Except.noConfusion h
      | ok ys' =>
        rw [hm] at h
        injection h with h
        subst h
        obtain ⟨hlen, hget⟩ := ih hm
        refine ⟨by simp [hlen], ?_⟩
        intro i x hx
        cases i with
        | zero =>
          injection hx with hx
          subst hx
          exact ⟨y, hf, rfl⟩
        | succ n => exact hget n x hx

/-- C7. FLIGHT/DH description structure: with n flight segments the
description is exactly n+2 lines — a `CHECK-IN <HH:MM>z (<HH:MM> LT)`
line, one line per segment in input order of the form
`<flight_number> <dep_airport> <HH:MM>z <arr_airport> <HH:MM>z`
(missing or empty flight numbers render as `UNKNOWN`, airports as
`???`), then a `CHECK-OUT` line in the same format. -/
theorem flight_description_structure (env : Env) (e : Event) (tz dt : String)
    (off : Int → Int) (t te : Int) (segLines : List String)
    (hdt : e.duty_type = some dt) (hft : dt = "FLIGHT" ∨ dt = "DH")
    (hz : env.zdb tz = some off)
    (ht : parseOpt env.host e.start_utc = some t)
    (hte : parseOpt env.host e.end_utc = some te)
    (hsegs : mapExcept (flightLine env) (e.flights.getD []) = .ok segLines) :
    buildDescriptionLines env e tz =
      .ok (("CHECK-IN " ++ fmtHM t ++ "z (" ++ fmtHM (t + off t) ++ " LT)") ::
        segLines ++
        ["CHECK-OUT " ++ fmtHM te ++ "z (" ++ fmtHM (te + off te) ++ " LT)"]) ∧
    (("CHECK-IN " ++ fmtHM t ++ "z (" ++ fmtHM (t + off t) ++ " LT)") ::
        segLines ++
        ["CHECK-OUT " ++ fmtHM te ++ "z (" ++ fmtHM (te + off te) ++ " LT)"]).length =
      (e.flights.getD []).length + 2 ∧
    ∀ i f td ta, (e.flights.getD []).get? i = some f →
      parseOpt env.host f.departure_time_utc = some td →
      parseOpt env.host f.arrival_time_utc = some ta →
      segLines.get? i = some
        ((match f.flight_number with
          | none => "UNKNOWN"
          | some s => if s = "" then "UNKNOWN" else s) ++ " " ++
         (match f.departure_airport with
          | none => "???"
          | some s => if s = "" then "???" else s) ++ " " ++
         formatTimeZ td ++ " " ++
         (match f.arrival_airport with
          | none => "???"
          | some s => if s = "" then "???" else s) ++ " " ++
         formatTimeZ ta) := by
  obtain ⟨hlen, hget⟩ := mapExcept_ok_get hsegs
  refine ⟨?_, ?_, ?_⟩
  · cases hsu : e.start_utc with
    | none => rw [hsu] at ht; exact Option.noConfusion ht
    | some su =>
    cases heu : e.end_utc with
    | none => rw [heu] at hte; exact Option.noConfusion hte
    | some eu =>
    rw [hsu] at ht; rw [heu] at hte
    simp only [parseOpt] at ht hte
    have hcond : (e.duty_type.getD "" = "FLIGHT" ∨ e.duty_type.getD "" = "DH") := by
      rw [hdt]; exact hft
    simp only [buildDescriptionLines, hsu, heu, parseOpt, ht, hte, hz,
      formatTimeLt, if_pos hcond, hsegs]
    rfl
  · simp [hlen]
  · intro i f td ta hf htd hta
    obtain ⟨y, hy, hys⟩ := hget i f hf
    rw [hys]
    rw [flightLine] at hy
    rw [htd, hta] at hy
    injection hy with hy
    subst hy
    rw [orToken.eq_def, orToken.eq_def, orToken.eq_def]

/-- C7, witness at the concrete FLIGHT event of spec example 2: the
description is exactly the three expected lines. -/
theorem flight_description_structure_witness :
    (evFl.duty_type = some "FLIGHT" ∧
     (("FLIGHT" : String) = "FLIGHT" ∨ ("FLIGHT" : String) = "DH") ∧
     envW.zdb "Europe/Berlin" = some (fun _ => 3600) ∧
     parseOpt envW.host evFl.start_utc = some 1709276400 ∧
     parseOpt envW.host evFl.end_utc = some 1709312400 ∧
     mapExcept (flightLine envW) (evFl.flights.getD []) =
       .ok ["BA123 LHR 08:00z JFK 16:00z"]) ∧
    buildDescriptionLines envW evFl "Europe/Berlin" =
      .ok ["CHECK-IN 07:00z (08:00 LT)", "BA123 LHR 08:00z JFK 16:00z",
           "CHECK-OUT 17:00z (18:00 LT)"] :=
  ⟨⟨rfl, Or.inl rfl, rfl, rfl, rfl, rfl⟩,
   ((flight_description_structure envW evFl "Europe/Berlin" "FLIGHT"
      (fun _ => 3600) 1709276400 1709312400 ["BA123 LHR 08:00z JFK 16:00z"]
      rfl (Or.inl rfl) rfl rfl rfl rfl).1).trans rfl⟩

/-- A flight segment's line succeeds exactly when its two required
timestamps are present and parseable, and otherwise raises
MalformedInput. -/
theorem flightLine_spec (env : Env) (f : Flight) :
    if flightTsOk env.host f then (∃ y, flightLine env f = .ok y)
    else flightLine env f = .error .malformedInput := by
  cases hd : parseOpt env.host f.departure_time_utc with
  | none => simp [flightLine, flightTsOk, hd]
  | some d =>
    cases ha : parseOpt env.host f.arrival_time_utc with
    | none => simp [flightLine, flightTsOk, hd, ha]
    | some a2 => simp [flightLine, flightTsOk, hd, ha]

/-- An activity segment's line succeeds exactly when its two required
timestamps are present and parseable. -/
theorem activityLine_spec (env : Env) (a : Activity) :
    if activityTsOk env.host a then (∃ y, activityLine env a = .ok y)
    else activityLine env a = .error .malformedInput := by
  cases hs : parseOpt env.host a.start_time_utc with
  | none => simp [activityLine, activityTsOk, hs]
  | some s2 =>
    cases he : parseOpt env.host a.end_time_utc with
    | none => simp [activityLine, activityTsOk, hs, he]
    | some e2 => simp [activityLine, activityTsOk, hs, he]

/-- Lifting a per-element success/failure characterisation through the
line-accumulating loop. -/
theorem mapExcept_spec {α β : Type} {f : α → Except Err β} {p : α → Bool}
    (hf : ∀ x, if p x then (∃ y, f x = .ok y)
      else f x = .error .malformedInput) :
    ∀ l : List α, if l.all p then (∃ ys, mapExcept f l = .ok ys)
      else mapExcept f l = .error .malformedInput := by
  intro l
  induction l with
  | nil => simp [mapExcept]
  | cons a as ih =>
    have ha := hf a
    cases hpa : p a with
    | false =>
      rw [hpa] at ha
      simp only [Bool.false_eq_true, if_false] at ha
      simp only [List.all_cons, hpa, Bool.false_and, Bool.false_eq_true,
        if_false]
      rw [mapExcept, ha]
    | true =>
      rw [hpa] at ha
      simp only [if_true] at ha
      obtain ⟨y, hy⟩ := ha
      simp only [List.all_cons, hpa, Bool.true_and]
      cases hall : as.all p with
      | false =>
        rw [hall] at ih
        simp only [Bool.false_eq_true, if_false] at ih
        simp only [Bool.false_eq_true, if_false]
        rw [mapExcept, hy, ih]
      | true =>
        rw [hall] at ih
        simp only [if_true] at ih
        obtain ⟨ys, hys⟩ := ih
        simp only [if_true]
        exact ⟨y :: ys, by rw [mapExcept, hy, hys]⟩

/-- With a resolvable zone, the description builder succeeds exactly
when every required timestamp is good, and otherwise raises
MalformedInput. -/
theorem buildDescriptionLines_spec (env : Env) (e : Event) (tz : String)
    (off : Int → Int) (hz : env.zdb tz = some off) :
    if eventTimestampsOk env.host e then
      (∃ ls, buildDescriptionLines env e tz = .ok ls)
    else buildDescriptionLines env e tz = .error .malformedInput := by
  cases hs : parseOpt env.host e.start_utc with
  | none => simp [eventTimestampsOk, buildDescriptionLines, hs]
  | some t =>
  cases he : parseOpt env.host e.end_utc with
  | none => simp [eventTimestampsOk, buildDescriptionLines, hs, he]
  | some te =>
  by_cases h1 : e.duty_type.getD "" = "FLIGHT" ∨ e.duty_type.getD "" = "DH"
  · have hseg := mapExcept_spec (fun f2 => flightLine_spec env f2)
      (e.flights.getD [])
    cases hall : (e.flights.getD []).all (flightTsOk env.host) with
    | true =>
      rw [hall] at hseg
      simp only [if_true] at hseg
      obtain ⟨ys, hys⟩ := hseg
      simp [eventTimestampsOk, segmentsTsOk, buildDescriptionLines, hs, he,
        hz, formatTimeLt, h1, hall, hys]
    | false =>
      rw [hall] at hseg
      simp only [Bool.false_eq_true, if_false] at hseg
      simp [eventTimestampsOk, segmentsTsOk, buildDescriptionLines, hs, he,
        hz, formatTimeLt, h1, hall, hseg]
  · by_cases h2 : e.duty_type.getD "" = "HSBY"
    · simp [eventTimestampsOk, segmentsTsOk, buildDescriptionLines, hs, he,
        hz, formatTimeLt, h1, h2]
    · by_cases h3 : e.duty_type.getD "" = "A/L"
      · simp [eventTimestampsOk, segmentsTsOk, buildDescriptionLines, hs, he,
          hz, formatTimeLt, h1, h2, h3]
      · have hseg := mapExcept_spec (fun a2 => activityLine_spec env a2)
          (e.activities.getD [])
        cases hall : (e.activities.getD []).all (activityTsOk env.host) with
        | true =>
          rw [hall] at hseg
          simp only [if_true] at hseg
          obtain ⟨ys, hys⟩ := hseg
          simp [eventTimestampsOk, segmentsTsOk, buildDescriptionLines, hs,
            he, hz, formatTimeLt, h1, h2, h3, hall, hys]
        | false =>
          rw [hall] at hseg
          simp only [Bool.false_eq_true, if_false] at hseg
          simp [eventTimestampsOk, segmentsTsOk, buildDescriptionLines, hs,
            he, hz, formatTimeLt, h1, h2, h3, hall, hseg]

/-- C5. MalformedInput raises-iff: with a resolvable zone, encoding an
event fails with MalformedInput exactly when a required timestamp
field (`start_utc`, `end_utc`, or a used segment's timestamps) is
missing or unparseable, and succeeds exactly otherwise — the encoder
never substitutes a default timestamp and never suppresses the
failure. -/
theorem malformed_iff (env : Env) (e : Event) (tz cal : String) (now : Int)
    (off : Int → Int) (hz : env.zdb tz = some off) :
    (eventToIcs env e tz cal now = .error .malformedInput ↔
      eventTimestampsOk env.host e = false) ∧
    ((∃ s, eventToIcs env e tz cal now = .ok s) ↔
      eventTimestampsOk env.host e = true) := by
  cases hsu : e.start_utc with
  | none =>
    simp [eventToIcs, eventToIcsLines, hsu, eventTimestampsOk, parseOpt]
  | some su =>
  cases ht : parseIsoUtc env.host su.data with
  | none =>
    simp [eventToIcs, eventToIcsLines, hsu, ht, eventTimestampsOk, parseOpt]
  | some t =>
  cases heu : e.end_utc with
  | none =>
    simp [eventToIcs, eventToIcsLines, hsu, ht, heu, eventTimestampsOk,
      parseOpt]
  | some eu =>
  cases hte : parseIsoUtc env.host eu.data with
  | none =>
    simp [eventToIcs, eventToIcsLines, hsu, ht, heu, hte, eventTimestampsOk,
      parseOpt]
  | some te =>
  have hbd := buildDescriptionLines_spec env e tz off hz
  cases hok : eventTimestampsOk env.host e with
  | true =>
    rw [hok] at hbd
    simp only [if_true] at hbd
    obtain ⟨ls, hls⟩ := hbd
    simp [eventToIcs, eventToIcsLines, buildDescription, hsu, ht, heu, hte,
      hls]
  | false =>
    rw [hok] at hbd
    simp only [Bool.false_eq_true, if_false] at hbd
    simp [eventToIcs, eventToIcsLines, buildDescription, hsu, ht, heu, hte,
      hbd]

/-- C5, witness: the iff at the concrete FLIGHT event (all timestamps
good) and at the same event with its flight segment's arrival
timestamp removed (encoding then fails with MalformedInput). -/
theorem malformed_iff_witness :
    (envW.zdb "UTC" = some (fun _ => 0) ∧
     eventTimestampsOk envW.host evFl = true ∧
     eventTimestampsOk envW.host
       { evFl with flights := some [{ flW with arrival_time_utc := none }] } =
       false) ∧
    ((eventToIcs envW evFl "UTC" "Roster" 0 = .error Err.malformedInput ↔
        eventTimestampsOk envW.host evFl = false) ∧
     ((∃ s, eventToIcs envW evFl "UTC" "Roster" 0 = .ok s) ↔
        eventTimestampsOk envW.host evFl = true)) ∧
    ((eventToIcs envW
        { evFl with flights := some [{ flW with arrival_time_utc := none }] }
        "UTC" "Roster" 0 = .error Err.malformedInput ↔
      eventTimestampsOk envW.host
        { evFl with flights := some [{ flW with arrival_time_utc := none }] } =
        false)) :=
  ⟨⟨rfl, rfl, rfl⟩,
   malformed_iff envW evFl "UTC" "Roster" 0 (fun _ => 0) rfl,
   (malformed_iff envW
     { evFl with flights := some [{ flW with arrival_time_utc := none }] }
     "UTC" "Roster" 0 (fun _ => 0) rfl).1⟩

/-- A successful body run of the assembler encodes each event, in
input order, with its own generation instant. -/
theorem encodeEvents_ok_get (env : Env) (tz cal : String) (nows : Nat → Int) :
    ∀ (es : List Event) (i₀ : Nat) (bs : List String),
      encodeEvents env tz cal nows i₀ es = .ok bs →
      bs.length = es.length ∧
      ∀ i e, es.get? i = some e →
        ∃ b, eventToIcs env e tz cal (nows (i₀ + i)) = .ok b ∧
          bs.get? i = some b := by
  intro es
  induction es with
  | nil =>
    intro i₀ bs h
    injection h with h
    subst h
    exact ⟨rfl, fun i e he => by cases i <;> exact Option.noConfusion he⟩
  | cons a as ih =>
    intro i₀ bs h
    rw [encodeEvents] at h
    cases hf : eventToIcs env a tz cal (nows i₀) with
    | error er => rw [hf] at h; exact Except.noConfusion h
    | ok b =>
      rw [hf] at h
      cases hm : encodeEvents env tz cal nows (i₀ + 1) as with
      | error er => rw [hm] at h; exact Except.noConfusion h
      | ok bs' =>
        rw [hm] at h
        injection h with h
        subst h
        obtain ⟨hlen, hget⟩ := ih (i₀ + 1) bs' hm
        refine ⟨by simp [hlen], ?_⟩
        intro i e he
        cases i with
        | zero =>
          injection he with he
          subst he
          exact ⟨b, by rw [Nat.add_zero]; exact hf, rfl⟩
        | succ n =>
          obtain ⟨b', hb', hbs⟩ := hget n e he
          exact ⟨b', by rw [show i₀ + (n + 1) = i₀ + 1 + n by omega]; exact hb',
            hbs⟩

/-- C4. Calendar assembly: when each event encodes to a block (in
input order, each with its own generation instant), the document is
exactly the five fixed preamble lines, the blocks in input order (one
per event, no sorting or deduplication), and the closing marker, all
joined with CR+LF; an empty event sequence yields exactly the
preamble plus footer — not an error. -/
theorem calendar_assembly (env : Env) (cal tz : String) (nows : Nat → Int)
    (events : List Event) (blocks : List String)
    (hb : encodeEvents env tz cal nows 0 events = .ok blocks) :
    jsonToIcs env ⟨some events⟩ cal tz nows =
      .ok (String.intercalate "\r\n"
        (["BEGIN:VCALENDAR", "VERSION:2.0",
          "PRODID:-//" ++ cal ++ "//RosterToICS//EN",
          "CALSCALE:GREGORIAN", "METHOD:PUBLISH"] ++ blocks ++
         ["END:VCALENDAR"])) ∧
    blocks.length = events.length ∧
    (∀ i e, events.get? i = some e →
      ∃ b, eventToIcs env e tz cal (nows i) = .ok b ∧
        blocks.get? i = some b) ∧
    jsonToIcs env ⟨some []⟩ cal tz nows =
      .ok (String.intercalate "\r\n" (icsHeader cal ++ ["END:VCALENDAR"])) := by
  obtain ⟨hlen, hget⟩ := encodeEvents_ok_get env tz cal nows events 0 blocks hb
  refine ⟨?_, hlen, ?_, ?_⟩
  · simp [jsonToIcs, hb, icsHeader]
  · intro i e he
    obtain ⟨b, hb', hbs⟩ := hget i e he
    rw [Nat.zero_add] at hb'
    exact ⟨b, hb', hbs⟩
  · rfl

/-- C4, witness at the empty event list (the hypothesis holds with
zero blocks) with calendar name `Roster`. -/
theorem calendar_assembly_witness :
    encodeEvents envW "UTC" "Roster" (fun _ => 0) 0 [] = .ok [] ∧
    jsonToIcs envW ⟨some []⟩ "Roster" "UTC" (fun _ => 0) =
      .ok (String.intercalate "\r\n"
        (["BEGIN:VCALENDAR", "VERSION:2.0",
          "PRODID:-//" ++ "Roster" ++ "//RosterToICS//EN",
          "CALSCALE:GREGORIAN", "METHOD:PUBLISH"] ++ ([] : List String) ++
         ["END:VCALENDAR"])) ∧
    jsonToIcs envW ⟨some []⟩ "Roster" "UTC" (fun _ => 0) =
      .ok "BEGIN:VCALENDAR\r\nVERSION:2.0\r\nPRODID:-//Roster//RosterToICS//EN\r\nCALSCALE:GREGORIAN\r\nMETHOD:PUBLISH\r\nEND:VCALENDAR" :=
  ⟨rfl,
   (calendar_assembly envW "Roster" "UTC" (fun _ => 0) [] [] rfl).1,
   ((calendar_assembly envW "Roster" "UTC" (fun _ => 0) [] [] rfl).2.2.2).trans
     rfl⟩

/-- C6 (counterexample). With a zone database in which no name
resolves, converting a roster with an empty event list succeeds (the
zone is never looked up), rather than failing with UnknownZone as the
claim requires. -/
theorem unknown_zone_empty_roster_ok :
    jsonToIcs envNoZone ⟨some []⟩ "Roster" "Mars/Olympus" (fun _ => 0) =
      .ok ("BEGIN:VCALENDAR\r\nVERSION:2.0\r\nPRODID:-//Roster//RosterToICS//EN\r\nCALSCALE:GREGORIAN\r\nMETHOD:PUBLISH\r\nEND:VCALENDAR") ∧
    jsonToIcs envNoZone ⟨some []⟩ "Roster" "Mars/Olympus" (fun _ => 0) ≠
      .error Err.unknownZone := by
  constructor
  · rfl
  · intro h
    rw [show jsonToIcs envNoZone ⟨some []⟩ "Roster" "Mars/Olympus" (fun _ => 0) =
      .ok ("BEGIN:VCALENDAR\r\nVERSION:2.0\r\nPRODID:-//Roster//RosterToICS//EN\r\nCALSCALE:GREGORIAN\r\nMETHOD:PUBLISH\r\nEND:VCALENDAR") from rfl] at h
    exact Except.noConfusion h

/-- C6 (amended). When the configured zone cannot be resolved,
encoding any event whose outer timestamps parse fails with
UnknownZone — regardless of duty type, so also for events whose
description shows no local time — and a roster whose first event is
such an event fails wholly with UnknownZone; but with an empty event
list the zone is never resolved and the conversion succeeds. -/
theorem unknown_zone_amended (env : Env) (e : Event) (tz cal : String)
    (now : Int) (nows : Nat → Int) (t te : Int)
    (hz : env.zdb tz = none)
    (ht : parseOpt env.host e.start_utc = some t)
    (hte : parseOpt env.host e.end_utc = some te) :
    eventToIcs env e tz cal now = .error .unknownZone ∧
    (∀ es, jsonToIcs env ⟨some (e :: es)⟩ cal tz nows =
      .error .unknownZone) ∧
    jsonToIcs env ⟨some []⟩ cal tz nows =
      .ok (String.intercalate "\r\n" (icsHeader cal ++ ["END:VCALENDAR"])) := by
  have hev : ∀ n : Int, eventToIcs env e tz cal n = .error .unknownZone := by
    intro n
    cases hsu : e.start_utc with
    | none => rw [hsu] at ht; exact Option.noConfusion ht
    | some su =>
    cases heu : e.end_utc with
    | none => rw [heu] at hte; exact Option.noConfusion hte
    | some eu =>
    rw [hsu] at ht; rw [heu] at hte
    simp only [parseOpt] at ht hte
    simp [eventToIcs, eventToIcsLines, buildDescription,
      buildDescriptionLines, hsu, heu, parseOpt, ht, hte, hz, formatTimeLt]
  refine ⟨hev now, ?_, rfl⟩
  intro es
  rw [jsonToIcs]
  rw [show (Roster.mk (some (e :: es))).events.getD [] = e :: es from rfl]
  rw [encodeEvents, hev (nows 0)]

/-- C6 amended, witness: an unresolvable zone fails the encoding of
the concrete `A/L` event (whose description shows no local time) and
any roster starting with it, while the empty roster succeeds. -/
theorem unknown_zone_amended_witness :
    (envNoZone.zdb "Mars/Olympus" = none ∧
     parseOpt envNoZone.host evAL.start_utc = some 1709251200 ∧
     parseOpt envNoZone.host evAL.end_utc = some 1709337540) ∧
    (eventToIcs envNoZone evAL "Mars/Olympus" "Roster" 0 =
       .error Err.unknownZone ∧
     (∀ es, jsonToIcs envNoZone ⟨some (evAL :: es)⟩ "Roster" "Mars/Olympus"
       (fun _ => 0) = .error Err.unknownZone) ∧
     jsonToIcs envNoZone ⟨some []⟩ "Roster" "Mars/Olympus" (fun _ => 0) =
       .ok (String.intercalate "\r\n"
         (icsHeader "Roster" ++ ["END:VCALENDAR"]))) :=
  ⟨⟨rfl, rfl, rfl⟩,
   unknown_zone_amended envNoZone evAL "Mars/Olympus" "Roster" 0 (fun _ => 0)
     1709251200 1709337540 rfl rfl rfl⟩

end Ros2cal
